import Mathlib

/-!
tinySPI: a verification development.

A shallow embedding of `src/tinySPI.cpp`.  The file holds two drivers that are
never compiled together:

* the hardware driver `SPIClass` (branch `#ifdef SPDR`), with its reference
  counted `begin`/`end` and the interrupt bookkeeping of `usingInterrupt` /
  `notUsingInterrupt`;
* the software driver `tinySPI` (branch `#ifdef USICR`), which clocks the USI
  shift register one `USITC` strobe at a time.

Registers and `uint8_t` variables are natural numbers; a write to USIDR or
USICR truncates to eight bits, and `initialized++` wraps modulo 256.  The
polling loop of the software driver has no timeout, so the operations that
contain it take a bound on the number of iterations and return `none` when the
bound is reached.
-/

/-! ## Bit helpers -/

/-- The avr-libc macro `_BV(bit)`, that is `1 << bit`. -/
def _BV (bit : Nat) : Nat := 1 <<< bit

/-- The C expression `x & ~m` on an 8-bit value: the bits of `m` are cleared. -/
def andNot8 (x m : Nat) : Nat := x &&& (0xFF ^^^ m)

/-- The global interrupt enable flag: the I bit (bit 7) of a status register value. -/
def iBit (sreg : Nat) : Bool := sreg.testBit 7

/-! ## Register bit positions (AVR device headers) -/

/-- Bit position of USISIE in USICR. -/
def USISIE : Nat := 7
/-- Bit position of USIOIE in USICR. -/
def USIOIE : Nat := 6
/-- Bit position of USIWM1 in USICR. -/
def USIWM1 : Nat := 5
/-- Bit position of USIWM0 in USICR. -/
def USIWM0 : Nat := 4
/-- Bit position of USICS1 in USICR. -/
def USICS1 : Nat := 3
/-- Bit position of USICS0 in USICR. -/
def USICS0 : Nat := 2
/-- Bit position of USICLK in USICR. -/
def USICLK : Nat := 1
/-- Bit position of USITC in USICR. -/
def USITC : Nat := 0
/-- Bit position of USISIF in USISR. -/
def USISIF : Nat := 7
/-- Bit position of USIOIF in USISR. -/
def USIOIF : Nat := 6
/-- Bit position of USIPF in USISR. -/
def USIPF : Nat := 5
/-- Bit position of USIDC in USISR. -/
def USIDC : Nat := 4
/-- Bit position of SPE in SPCR. -/
def SPE : Nat := 6
/-- Bit position of MSTR in SPCR. -/
def MSTR : Nat := 4

/-! ## The software driver: machine state -/

/-- What is wired to the data input DI: given the bits driven on DO at the
earlier shifts and the bit on DO now, the level sampled on DI. -/
abbrev Device := List Bool → Bool → Bool

/-- Loopback wiring: data-out is connected to data-in. -/
def loopback : Device := fun _ b => b

/-- The state the software driver works on: the USI registers, the status
register SREG, the data direction register of the USI port, the level of the
clock line, and three observation logs (bits shifted out on DO, number of
`USITC` strobes, number of register writes). -/
structure tinySPI where
  USIDR : Nat
  USISIFflag : Bool
  USIOIFflag : Bool
  USIPFflag : Bool
  USIDCflag : Bool
  USICNT : Nat
  USICR : Nat
  SREG : Nat
  USI_DDR_PORT : Nat
  USCK : Bool
  wire : List Bool
  strobes : Nat
  writes : Nat
deriving DecidableEq, Repr

/-- Constants of the header `tinySPI.h` and of the pin mapping, which are not
part of the source file: the value of `SPI_MODE1` and the three data direction
bit numbers. -/
structure UsiPart where
  SPI_MODE1 : Nat
  USCK_DD_PIN : Nat
  DO_DD_PIN : Nat
  DI_DD_PIN : Nat
deriving DecidableEq, Repr

/-! ## The USI peripheral -/

/-- Modelled from the spec: the USI data register is hardware, not code of
`src/`.  One shift of the data register: the most significant bit leaves on
DO, the level on DI enters as the least significant bit. -/
def usiShift (dev : Device) (s : tinySPI) : tinySPI :=
  let dout := s.USIDR.testBit 7
  let din := dev s.wire dout
  { s with USIDR := (s.USIDR * 2) % 256 + din.toNat, wire := s.wire ++ [dout] }

/-- Modelled from the spec: the USI peripheral is hardware, not code of `src/`.
One `USITC` strobe toggles the clock line and advances the 4-bit edge counter;
when the counter overflows (15 to 0) the overflow flag USIOIF is set, which
signals a completed byte shift.  The data register shifts on one of the two
clock edges, chosen by the clock source bit USICS0: the rising edge when the
bit is clear, the falling edge when it is set. -/
def usiStrobe (dev : Device) (s : tinySPI) : tinySPI :=
  let ck := !s.USCK
  let shiftEdge := if s.USICR.testBit USICS0 then !ck else ck
  let s1 := if shiftEdge then usiShift dev s else s
  { s1 with
    USCK := ck
    USICNT := (s.USICNT + 1) % 16
    USIOIFflag := s.USIOIFflag || decide (s.USICNT % 16 = 15)
    strobes := s.strobes + 1 }

/-- Reading USISR: the four flags in bits 7..4, the counter in bits 3..0. -/
def readUSISR (s : tinySPI) : Nat :=
  s.USISIFflag.toNat * 128 + s.USIOIFflag.toNat * 64 + s.USIPFflag.toNat * 32
    + s.USIDCflag.toNat * 16 + s.USICNT % 16

/-- Modelled from the spec: writing USISR (hardware, not code of `src/`).  A
one written to USISIF, USIOIF or USIPF clears that flag, USIDC is read-only,
and the low four bits load the counter: so `USISR = _BV(USIOIF)` clears the
overflow flag and the counter. -/
def writeUSISR (v : Nat) (s : tinySPI) : tinySPI :=
  { s with
    USISIFflag := s.USISIFflag && !v.testBit USISIF
    USIOIFflag := s.USIOIFflag && !v.testBit USIOIF
    USIPFflag := s.USIPFflag && !v.testBit USIPF
    USICNT := v % 16
    writes := s.writes + 1 }

/-- Reading USIDR. -/
def readUSIDR (s : tinySPI) : Nat := s.USIDR

/-- Writing USIDR, an 8-bit register. -/
def writeUSIDR (v : Nat) (s : tinySPI) : tinySPI :=
  { s with USIDR := v % 256, writes := s.writes + 1 }

/-- Reading USICR: the strobe bit USITC always reads as zero. -/
def readUSICR (s : tinySPI) : Nat := andNot8 s.USICR (_BV USITC)

/-- Writing USICR, an 8-bit register; a one in USITC is a clock strobe. -/
def writeUSICR (dev : Device) (v : Nat) (s : tinySPI) : tinySPI :=
  let s1 := { s with USICR := v % 256, writes := s.writes + 1 }
  if v.testBit USITC then usiStrobe dev s1 else s1

/-- Writing SREG; the value written is always one read from SREG before. -/
def writeSREG (v : Nat) (s : tinySPI) : tinySPI :=
  { s with SREG := v, writes := s.writes + 1 }

/-- The instruction `cli`: clears the I bit of SREG. -/
def cli (s : tinySPI) : tinySPI :=
  { s with SREG := andNot8 s.SREG (_BV 7), writes := s.writes + 1 }

/-! ## The software driver: operations -/

/-- The polling loop `while ( !(USISR & _BV(USIOIF)) ) USICR |= _BV(USITC);`.
The loop has no timeout in the source; here `fuel` bounds the number of
iterations and `none` means the bound was reached with the flag still clear. -/
def pollLoop (dev : Device) : Nat → tinySPI → Option tinySPI
  | 0, s => if readUSISR s &&& _BV USIOIF = 0 then none else some s
  | fuel + 1, s =>
    if readUSISR s &&& _BV USIOIF = 0 then
      pollLoop dev fuel (writeUSICR dev (readUSICR s ||| _BV USITC) s)
    else some s

/-- The block `ATOMIC_BLOCK(ATOMIC_RESTORESTATE) { while ... }`: SREG is saved,
interrupts are disabled, the polling loop runs, SREG is restored. -/
def atomicPoll (dev : Device) (fuel : Nat) (s : tinySPI) : Option tinySPI :=
  let sreg_save := s.SREG
  match pollLoop dev fuel (cli s) with
  | none => none
  | some s1 => some (writeSREG sreg_save s1)

/-- Source: `tinySPI::begin`. -/
def tinySPI.begin (p : UsiPart) (dev : Device) (s : tinySPI) : tinySPI :=
  let s := writeUSICR dev
    (andNot8 (readUSICR s) (_BV USISIE ||| _BV USIOIE ||| _BV USIWM1)) s
  let s := writeUSICR dev
    (readUSICR s ||| (_BV USIWM0 ||| _BV USICS1 ||| _BV USICLK)) s
  let s := { s with USI_DDR_PORT := s.USI_DDR_PORT ||| _BV p.USCK_DD_PIN }
  let s := { s with USI_DDR_PORT := s.USI_DDR_PORT ||| _BV p.DO_DD_PIN }
  { s with USI_DDR_PORT := andNot8 s.USI_DDR_PORT (_BV p.DI_DD_PIN) }

/-- Source: `tinySPI::setDataMode`. -/
def tinySPI.setDataMode (p : UsiPart) (dev : Device) (spiDataMode : Nat)
    (s : tinySPI) : tinySPI :=
  if spiDataMode = p.SPI_MODE1 then
    writeUSICR dev (readUSICR s ||| _BV USICS0) s
  else
    writeUSICR dev (andNot8 (readUSICR s) (_BV USICS0)) s

/-- Source: `tinySPI::transfer(uint8_t)`. -/
def tinySPI.transfer (dev : Device) (fuel : Nat) (spiData : Nat)
    (s : tinySPI) : Option (Nat × tinySPI) :=
  let s := writeUSIDR spiData s
  let s := writeUSISR (_BV USIOIF) s
  match atomicPoll dev fuel s with
  | none => none
  | some s1 => some (readUSIDR s1, s1)

/-- Source: `tinySPI::transfer16`.  The union puts the low byte of `data` in
`lsb` and the high byte in `msb`. -/
def tinySPI.transfer16 (dev : Device) (fuel : Nat) (data : Nat)
    (s : tinySPI) : Option (Nat × tinySPI) :=
  let in_msb := (data >>> 8) % 256
  let in_lsb := data % 256
  let s := writeUSIDR in_msb s
  let s := writeUSISR (_BV USIOIF) s
  match atomicPoll dev fuel s with
  | none => none
  | some s1 =>
    let out_msb := readUSIDR s1
    let s2 := writeUSIDR in_lsb s1
    let s2 := writeUSISR (_BV USIOIF) s2
    match atomicPoll dev fuel s2 with
    | none => none
    | some s3 =>
      let out_lsb := readUSIDR s3
      some (out_msb * 256 + out_lsb, s3)

/-- The loop `while (--count > 0) { ... }` of `tinySPI::transfer(void *, size_t)`;
the first argument is the number of iterations left (`count - 1` on entry), `p`
the index the pointer has reached. -/
def transferBufLoop (dev : Device) (fuel : Nat) :
    Nat → Nat → List Nat → tinySPI → Option (Nat × List Nat × tinySPI)
  | 0, p, buf, s => some (p, buf, s)
  | k + 1, p, buf, s =>
    let out := buf.getD (p + 1) 0
    match atomicPoll dev fuel s with
    | none => none
    | some s1 =>
      let inb := readUSIDR s1
      let s2 := writeUSIDR out s1
      transferBufLoop dev fuel k (p + 1) (buf.set p inb) s2

/-- Source: `tinySPI::transfer(void *buf, size_t count)`. -/
def tinySPI.transferBuf (dev : Device) (fuel : Nat) (buf : List Nat) (count : Nat)
    (s : tinySPI) : Option (List Nat × tinySPI) :=
  if count = 0 then some (buf, s)
  else
    let s := writeUSIDR (buf.getD 0 0) s
    match transferBufLoop dev fuel (count - 1) 0 buf s with
    | none => none
    | some (p, buf1, s1) =>
      match atomicPoll dev fuel s1 with
      | none => none
      | some s2 => some (buf1.set p (readUSIDR s2), s2)

/-- Source: `tinySPI::end`. -/
def tinySPI.end_ (dev : Device) (s : tinySPI) : tinySPI :=
  writeUSICR dev (andNot8 (readUSICR s) (_BV USIWM1 ||| _BV USIWM0)) s

/-- The reference behaviour the buffer transfer is compared with:
`buf[i] = transfer(buf[i])` for `i = p, p + 1, ...`, `n` times. -/
def transferSeq (dev : Device) (fuel : Nat) :
    Nat → Nat → List Nat → tinySPI → Option (List Nat × tinySPI)
  | 0, _, buf, s => some (buf, s)
  | n + 1, p, buf, s =>
    match tinySPI.transfer dev fuel (buf.getD p 0) s with
    | none => none
    | some (r, s1) => transferSeq dev fuel n (p + 1) (buf.set p r) s1

/-- A power-on state of the USI: all registers zero, clock line low. -/
def usiReset : tinySPI :=
  { USIDR := 0, USISIFflag := false, USIOIFflag := false, USIPFflag := false,
    USIDCflag := false, USICNT := 0, USICR := 0, SREG := 0x80, USI_DDR_PORT := 0,
    USCK := false, wire := [], strobes := 0, writes := 0 }

/-- The eight bits of a byte, most significant first. -/
def bitsMsbFirst (b : Nat) : List Bool :=
  [b.testBit 7, b.testBit 6, b.testBit 5, b.testBit 4,
   b.testBit 3, b.testBit 2, b.testBit 1, b.testBit 0]

/-- The loop body `USICR |= _BV(USITC)` on its own: one clock strobe. -/
def strobeWrite (dev : Device) (s : tinySPI) : tinySPI :=
  writeUSICR dev (readUSICR s ||| _BV USITC) s

/-- Rotating a byte left by one bit: what one shift does to USIDR in loopback. -/
def rotl8 (x : Nat) : Nat := (x * 2) % 256 + (x.testBit 7).toNat

/-- The bits that leave on DO during `k` successive rotations of `x`. -/
def shiftedOut : Nat → Nat → List Bool
  | 0, _ => []
  | k + 1, x => x.testBit 7 :: shiftedOut k (rotl8 x)

/-! ## The hardware driver: machine state -/

/-- The state the hardware driver works on: the static members of `SPIClass`,
the registers SREG and SPCR, and the direction (DDR) and level (PORT) bits of
the pins SS, SCK and MOSI. -/
structure SPIClass where
  initialized : Nat
  interruptMode : Nat
  interruptMask : Nat
  interruptSave : Nat
  SREG : Nat
  SPCR : Nat
  ssDDR : Bool
  ssPORT : Bool
  sckDDR : Bool
  sckPORT : Bool
  mosiDDR : Bool
  mosiPORT : Bool
deriving DecidableEq, Repr

/-- The pins the hardware driver configures. -/
inductive Pin where
  | SS
  | SCK
  | MOSI
deriving DecidableEq, Repr

/-- The part-specific table `SPI_INT0_MASK` .. `SPI_INT7_MASK`, chosen by the
preprocessor: `SPI_INT_MASK n` is `none` when the part has no macro for
line `n`. -/
structure SpiPart where
  SPI_INT_MASK : Nat → Option Nat

/-- The `switch (interruptNumber)` of `usingInterrupt` and `notUsingInterrupt`:
it has a `case` for the lines 0 to 7 whose macro is defined, every other
number takes the `default` branch. -/
def lookupMask (p : SpiPart) (interruptNumber : Nat) : Option Nat :=
  if interruptNumber < 8 then p.SPI_INT_MASK interruptNumber else none

/-- The Arduino macro `noInterrupts()`, the instruction `cli`. -/
def noInterrupts (s : SPIClass) : SPIClass :=
  { s with SREG := andNot8 s.SREG (_BV 7) }

/-- Modelled from the spec: the Arduino core function `pinMode(pin, OUTPUT)` is
not part of `src/`; it sets the direction bit of the pin. -/
def pinModeOutput (pin : Pin) (s : SPIClass) : SPIClass :=
  match pin with
  | Pin.SS => { s with ssDDR := true }
  | Pin.SCK => { s with sckDDR := true }
  | Pin.MOSI => { s with mosiDDR := true }

/-- Modelled from the spec: the Arduino core function `digitalWrite(pin, HIGH)`
is not part of `src/`; it sets the PORT bit of the pin. -/
def digitalWriteHigh (pin : Pin) (s : SPIClass) : SPIClass :=
  match pin with
  | Pin.SS => { s with ssPORT := true }
  | Pin.SCK => { s with sckPORT := true }
  | Pin.MOSI => { s with mosiPORT := true }

/-- The direction bit of a pin, `*portModeRegister(port) & bit`. -/
def pinIsOutput (pin : Pin) (s : SPIClass) : Bool :=
  match pin with
  | Pin.SS => s.ssDDR
  | Pin.SCK => s.sckDDR
  | Pin.MOSI => s.mosiDDR

/-! ## The hardware driver: operations -/

/-- The body of `if (!initialized) { ... }` in `SPIClass::begin`: the electrical
setup. -/
def beginSetup (s : SPIClass) : SPIClass :=
  let s := if !pinIsOutput Pin.SS s then digitalWriteHigh Pin.SS s else s
  let s := pinModeOutput Pin.SS s
  let s := { s with SPCR := s.SPCR ||| _BV MSTR }
  let s := { s with SPCR := s.SPCR ||| _BV SPE }
  let s := pinModeOutput Pin.SCK s
  pinModeOutput Pin.MOSI s

/-- Source: `SPIClass::begin`. -/
def SPIClass.begin (s : SPIClass) : SPIClass :=
  let sreg := s.SREG
  let s := noInterrupts s
  let s := if s.initialized = 0 then beginSetup s else s
  let s := { s with initialized := (s.initialized + 1) % 256 }
  { s with SREG := sreg }

/-- Source: `SPIClass::end`. -/
def SPIClass.end_ (s : SPIClass) : SPIClass :=
  let sreg := s.SREG
  let s := noInterrupts s
  let s := if s.initialized ≠ 0 then { s with initialized := s.initialized - 1 } else s
  let s := if s.initialized = 0 then
      { s with SPCR := andNot8 s.SPCR (_BV SPE), interruptMode := 0 }
    else s
  { s with SREG := sreg }

/-- Source: `SPIClass::usingInterrupt`. -/
def SPIClass.usingInterrupt (p : SpiPart) (interruptNumber : Nat) (s : SPIClass) :
    SPIClass :=
  let sreg := s.SREG
  let s := noInterrupts s
  let mask := match lookupMask p interruptNumber with
    | some m => m % 256
    | none => 0
  let s := match lookupMask p interruptNumber with
    | some _ => s
    | none => { s with interruptMode := 2 }
  let s := { s with interruptMask := s.interruptMask ||| mask }
  let s := if s.interruptMode = 0 then { s with interruptMode := 1 } else s
  { s with SREG := sreg }

/-- Source: `SPIClass::notUsingInterrupt`. -/
def SPIClass.notUsingInterrupt (p : SpiPart) (interruptNumber : Nat) (s : SPIClass) :
    SPIClass :=
  if s.interruptMode = 2 then s
  else
    let sreg := s.SREG
    let s := noInterrupts s
    let mask := match lookupMask p interruptNumber with
      | some m => m % 256
      | none => 0
    let s := { s with interruptMask := andNot8 s.interruptMask mask }
    let s := if s.interruptMask = 0 then { s with interruptMode := 0 } else s
    { s with SREG := sreg }

/-! ## Call sequences of the hardware driver -/

/-- A call of `begin()` or `end()`. -/
inductive LifeCall where
  | callBegin
  | callEnd
deriving DecidableEq, Repr

/-- Executing one `begin()` or `end()` call. -/
def LifeCall.exec : LifeCall → SPIClass → SPIClass
  | LifeCall.callBegin, s => s.begin
  | LifeCall.callEnd, s => s.end_

/-- Executing a sequence of `begin()`/`end()` calls, first call first. -/
def runLife (calls : List LifeCall) (s : SPIClass) : SPIClass :=
  calls.foldl (fun t c => c.exec t) s

/-- The number of `begin()` calls of the sequence not yet matched by a later
`end()`; an `end()` that finds no unmatched `begin()` matches nothing. -/
def outstanding (calls : List LifeCall) : Nat :=
  calls.foldl (fun n c => match c with
    | LifeCall.callBegin => n + 1
    | LifeCall.callEnd => n - 1) 0

/-- A call of one of the four lifecycle and interrupt bookkeeping operations. -/
inductive HwCall where
  | callBegin
  | callEnd
  | callUsing (interruptNumber : Nat)
  | callNotUsing (interruptNumber : Nat)
deriving DecidableEq, Repr

/-- Executing one call. -/
def HwCall.exec (p : SpiPart) : HwCall → SPIClass → SPIClass
  | HwCall.callBegin, s => s.begin
  | HwCall.callEnd, s => s.end_
  | HwCall.callUsing n, s => s.usingInterrupt p n
  | HwCall.callNotUsing n, s => s.notUsingInterrupt p n

/-- Executing a sequence of calls, first call first. -/
def runCalls (p : SpiPart) : List HwCall → SPIClass → SPIClass
  | [], s => s
  | c :: rest, s => runCalls p rest (c.exec p s)

/-- Whether no `end()` call of the sequence, run from `s`, resets
`interruptMode` while lines are still registered: each `end()` is made with
`interruptMask == 0` or with a reference count of at least 2. -/
def endsKeepMask (p : SpiPart) : List HwCall → SPIClass → Bool
  | [], _ => true
  | c :: rest, s =>
    (match c with
      | HwCall.callEnd => decide (s.interruptMask = 0 ∨ 2 ≤ s.initialized)
      | _ => true)
    && endsKeepMask p rest (c.exec p s)

/-- The hardware driver after reset: the static members as initialised in the
source, all registers zero. -/
def spiReset : SPIClass :=
  { initialized := 0, interruptMode := 0, interruptMask := 0, interruptSave := 0,
    SREG := 0, SPCR := 0, ssDDR := false, ssPORT := false, sckDDR := false,
    sckPORT := false, mosiDDR := false, mosiPORT := false }

/-- A part with the external interrupt lines INT0 and INT1 at bits 0 and 1 of
the mask register: the `#else` branch of the table, with both `INT0` and
`INT1` known to the device header. -/
def partInt01 : SpiPart :=
  { SPI_INT_MASK := fun n => if n = 0 then some 1 else if n = 1 then some 2 else none }

/-- A part configuration for the software driver, with the `SPI_MODE1` value of
the header `tinySPI.h` and the USI pins of an ATtiny85. -/
def partTiny85 : UsiPart :=
  { SPI_MODE1 := 4, USCK_DD_PIN := 2, DO_DD_PIN := 1, DI_DD_PIN := 0 }

/-! ## The polling loop terminates -/

/-- The loop condition `USISR & _BV(USIOIF)` tests the overflow flag. -/
theorem usisr_flag_test (s : tinySPI) :
    (readUSISR s &&& _BV USIOIF = 0) ↔ s.USIOIFflag = false := by
  have hc : s.USICNT % 16 < 16 := Nat.mod_lt _ (by decide)
  unfold readUSISR _BV USIOIF
  generalize s.USICNT % 16 = c at hc
  generalize s.USISIFflag = a
  generalize s.USIOIFflag = f
  generalize s.USIPFflag = g
  generalize s.USIDCflag = d
  interval_cases c <;> cases a <;> cases f <;> cases g <;> cases d <;> decide

/-- The write `USICR |= _BV(USITC)` is one strobe of the peripheral. -/
theorem strobeWrite_eq (dev : Device) (s : tinySPI) :
    strobeWrite dev s
      = usiStrobe dev { s with USICR := (readUSICR s ||| _BV USITC) % 256, writes := s.writes + 1 } := by
  unfold strobeWrite writeUSICR
  have : (readUSICR s ||| _BV USITC).testBit USITC = true := by
    simp [Nat.testBit_or, _BV, USITC]
  simp [this]

/-- The strobe write leaves the clock source bit as it was. -/
theorem usics0_kept (x : Nat) :
    ((andNot8 x (_BV USITC) ||| _BV USITC) % 256).testBit USICS0 = x.testBit USICS0 := by
  have h : (256 : Nat) = 2 ^ 8 := by norm_num
  have h1 : Nat.testBit 254 2 = true := by decide
  have h2 : Nat.testBit 1 2 = false := by decide
  rw [h, Nat.testBit_mod_two_pow]
  simp [andNot8, _BV, USITC, USICS0, Nat.testBit_or, Nat.testBit_and, h1, h2]

/-- What one strobe does to the counter, the flag and the logs. -/
theorem strobeWrite_fields (dev : Device) (s : tinySPI) :
    (strobeWrite dev s).USICNT = (s.USICNT + 1) % 16
    ∧ (strobeWrite dev s).USIOIFflag = (s.USIOIFflag || decide (s.USICNT % 16 = 15))
    ∧ (strobeWrite dev s).SREG = s.SREG
    ∧ (strobeWrite dev s).USCK = (!s.USCK)
    ∧ (strobeWrite dev s).strobes = s.strobes + 1
    ∧ (strobeWrite dev s).writes = s.writes + 1
    ∧ (strobeWrite dev s).USICR.testBit USICS0 = s.USICR.testBit USICS0 := by
  rw [strobeWrite_eq]
  simp only [usiStrobe, usiShift, readUSICR]
  split_ifs <;> simp [usics0_kept]

/-- With the flag clear the loop runs its body once more. -/
theorem pollLoop_step (dev : Device) (fuel : Nat) (s : tinySPI) (h : s.USIOIFflag = false) :
    pollLoop dev (fuel + 1) s = pollLoop dev fuel (strobeWrite dev s) := by
  have := (usisr_flag_test s).mpr h
  simp [pollLoop, this, strobeWrite]

/-- With the flag set the loop exits at once. -/
theorem pollLoop_done (dev : Device) (fuel : Nat) (s : tinySPI) (h : s.USIOIFflag = true) :
    pollLoop dev fuel s = some s := by
  have : ¬ (readUSISR s &&& _BV USIOIF = 0) := by
    rw [usisr_flag_test]; simp [h]
  cases fuel <;> simp [pollLoop, this]

/-- From a clear flag the loop issues exactly the strobes missing to the overflow. -/
theorem pollLoop_run (dev : Device) :
    ∀ (n : Nat) (s : tinySPI) (fuel : Nat), s.USIOIFflag = false →
      n + s.USICNT % 16 = 16 → n ≤ fuel →
      pollLoop dev fuel s = some ((strobeWrite dev)^[n] s)
        ∧ ((strobeWrite dev)^[n] s).USIOIFflag = true := by
  intro n
  induction n with
  | zero =>
    intro s fuel _ hn _
    have : s.USICNT % 16 < 16 := Nat.mod_lt _ (by decide)
    omega
  | succ m ih =>
    intro s fuel hf hn hfuel
    obtain ⟨f, rfl⟩ : ∃ f, fuel = f + 1 := ⟨fuel - 1, by omega⟩
    rw [pollLoop_step dev f s hf, Function.iterate_succ_apply]
    obtain ⟨hc, hflag, -⟩ := strobeWrite_fields dev s
    by_cases h15 : s.USICNT % 16 = 15
    · have hm : m = 0 := by omega
      subst hm
      have : (strobeWrite dev s).USIOIFflag = true := by simp [hflag, h15]
      simp [pollLoop_done dev f _ this, this]
    · have hf2 : (strobeWrite dev s).USIOIFflag = false := by simp [hflag, hf, h15]
      apply ih _ f hf2 _ (by omega)
      rw [hc]; omega

/-- With 16 iterations allowed the polling loop always exits. -/
theorem pollLoop_total (dev : Device) (fuel : Nat) (s : tinySPI) (hfuel : 16 ≤ fuel) :
    ∃ k, k ≤ 16 ∧ pollLoop dev fuel s = some ((strobeWrite dev)^[k] s) := by
  cases hf : s.USIOIFflag with
  | true => exact ⟨0, by omega, by simpa using pollLoop_done dev fuel s hf⟩
  | false =>
    have hc : s.USICNT % 16 < 16 := Nat.mod_lt _ (by decide)
    refine ⟨16 - s.USICNT % 16, by omega, ?_⟩
    exact (pollLoop_run dev _ s fuel hf (by omega) (by omega)).1

/-- Two strobes hold one shifting edge: in loopback USIDR is rotated once. -/
theorem strobeWrite_twice_loopback (s : tinySPI) :
    (strobeWrite loopback (strobeWrite loopback s)).USIDR = rotl8 s.USIDR
    ∧ (strobeWrite loopback (strobeWrite loopback s)).wire = s.wire ++ [s.USIDR.testBit 7] := by
  have h1 := usics0_kept s.USICR
  have h2 := usics0_kept ((andNot8 s.USICR (_BV USITC) ||| _BV USITC) % 256)
  rw [h1] at h2
  rw [strobeWrite_eq, strobeWrite_eq]
  simp only [usiStrobe, usiShift, readUSICR, loopback, rotl8]
  cases hb : s.USICR.testBit USICS0 <;> rw [hb] at h1 h2 <;> cases hk : s.USCK <;>
    simp [h1, h2, hk]

/-- Strobes leave SREG alone and are counted in the logs. -/
theorem strobeWrite_iterate_frame (dev : Device) (n : Nat) :
    ∀ s : tinySPI, ((strobeWrite dev)^[n] s).SREG = s.SREG
      ∧ ((strobeWrite dev)^[n] s).strobes = s.strobes + n
      ∧ ((strobeWrite dev)^[n] s).writes = s.writes + n := by
  induction n with
  | zero => intro s; simp
  | succ m ih =>
    intro s
    obtain ⟨-, -, h1, -, h2, h3, -⟩ := strobeWrite_fields dev s
    obtain ⟨i1, i2, i3⟩ := ih (strobeWrite dev s)
    rw [Function.iterate_succ_apply, i1, i2, i3, h1, h2, h3]
    refine ⟨rfl, ?_, ?_⟩ <;> omega

/-- In loopback `2 * k` strobes rotate USIDR `k` times. -/
theorem strobeWrite_iterate_loopback (k : Nat) :
    ∀ s : tinySPI, ((strobeWrite loopback)^[2 * k] s).USIDR = rotl8^[k] s.USIDR
      ∧ ((strobeWrite loopback)^[2 * k] s).wire = s.wire ++ shiftedOut k s.USIDR := by
  induction k with
  | zero => intro s; simp [shiftedOut]
  | succ m ih =>
    intro s
    have e : 2 * (m + 1) = (2 * m + 1) + 1 := by omega
    obtain ⟨h1, h2⟩ := strobeWrite_twice_loopback s
    obtain ⟨i1, i2⟩ := ih (strobeWrite loopback (strobeWrite loopback s))
    rw [e, Function.iterate_succ_apply, Function.iterate_succ_apply, i1, i2, h1, h2]
    simp [shiftedOut, Function.iterate_succ_apply]

set_option maxRecDepth 100000 in
/-- Eight rotations give the byte back and shift its bits out, most significant first. -/
theorem rotl8_eight : ∀ x, x < 256 →
    rotl8^[8] x = x ∧ shiftedOut 8 x = bitsMsbFirst x := by
  decide

/-- With 16 iterations allowed the atomic block returns, SREG restored. -/
theorem atomicPoll_total (dev : Device) (fuel : Nat) (s : tinySPI) (hfuel : 16 ≤ fuel) :
    ∃ k, k ≤ 16 ∧
      atomicPoll dev fuel s = some (writeSREG s.SREG ((strobeWrite dev)^[k] (cli s))) := by
  obtain ⟨k, hk, h⟩ := pollLoop_total dev fuel (cli s) hfuel
  exact ⟨k, hk, by simp [atomicPoll, h]⟩

/-- From a cleared flag and counter the atomic block issues 16 strobes. -/
theorem atomicPoll_fresh (dev : Device) (fuel : Nat) (s : tinySPI) (hfuel : 16 ≤ fuel)
    (hf : s.USIOIFflag = false) (hc : s.USICNT % 16 = 0) :
    atomicPoll dev fuel s = some (writeSREG s.SREG ((strobeWrite dev)^[16] (cli s))) := by
  have h := (pollLoop_run dev 16 (cli s) fuel (by simpa [cli] using hf)
    (by simpa [cli] using hc) hfuel).1
  simp [atomicPoll, h]

/-- With the flag already set the atomic block issues no strobe. -/
theorem atomicPoll_flagged (dev : Device) (fuel : Nat) (s : tinySPI)
    (hf : s.USIOIFflag = true) :
    atomicPoll dev fuel s = some (writeSREG s.SREG (cli s)) := by
  have h := pollLoop_done dev fuel (cli s) (by simpa [cli] using hf)
  simp [atomicPoll, h]

/-- The byte transfer in closed form: 16 strobes after the three register writes. -/
theorem transfer_eq (dev : Device) (fuel : Nat) (b : Nat) (s : tinySPI) (hfuel : 16 ≤ fuel) :
    tinySPI.transfer dev fuel b s
      = some (((strobeWrite dev)^[16] (cli (writeUSISR (_BV USIOIF) (writeUSIDR b s)))).USIDR,
          writeSREG s.SREG
            ((strobeWrite dev)^[16] (cli (writeUSISR (_BV USIOIF) (writeUSIDR b s))))) := by
  have h := atomicPoll_fresh dev fuel (writeUSISR (_BV USIOIF) (writeUSIDR b s)) hfuel
    (by have : Nat.testBit 64 6 = true := by decide
        simp [writeUSISR, writeUSIDR, _BV, USIOIF, this])
    (by simp [writeUSISR, _BV, USIOIF])
  simp only [tinySPI.transfer, h]
  simp [writeSREG, readUSIDR, writeUSISR, writeUSIDR]

/-- The byte transfer against loopback: result, wire, strobe count and SREG. -/
theorem transfer_loopback (fuel : Nat) (b : Nat) (s : tinySPI) (hfuel : 16 ≤ fuel)
    (hb : b < 256) :
    ∃ s1, tinySPI.transfer loopback fuel b s = some (b, s1)
      ∧ s1.wire = s.wire ++ bitsMsbFirst b
      ∧ s1.strobes = s.strobes + 16
      ∧ s1.SREG = s.SREG := by
  have e : (2 * 8 : Nat) = 16 := rfl
  obtain ⟨h1, h2⟩ := strobeWrite_iterate_loopback 8
    (cli (writeUSISR (_BV USIOIF) (writeUSIDR b s)))
  rw [e] at h1 h2
  have h3 := (strobeWrite_iterate_frame loopback 16
    (cli (writeUSISR (_BV USIOIF) (writeUSIDR b s)))).2.1
  have hd : (cli (writeUSISR (_BV USIOIF) (writeUSIDR b s))).USIDR = b := by
    simp [cli, writeUSISR, writeUSIDR, Nat.mod_eq_of_lt hb]
  rw [hd] at h1 h2
  rw [(rotl8_eight b hb).1] at h1
  rw [(rotl8_eight b hb).2] at h2
  refine ⟨writeSREG s.SREG
    ((strobeWrite loopback)^[16] (cli (writeUSISR (_BV USIOIF) (writeUSIDR b s)))), ?_, ?_, ?_, ?_⟩
  · rw [transfer_eq loopback fuel b s hfuel, h1]
  · simpa [writeSREG, cli, writeUSISR, writeUSIDR] using h2
  · simpa [writeSREG, cli, writeUSISR, writeUSIDR] using h3
  · simp [writeSREG]

/-! ## Bytes stay bytes -/

/-- A strobe keeps USIDR a byte. -/
theorem strobeWrite_USIDR_lt (dev : Device) (s : tinySPI) (h : s.USIDR < 256) :
    (strobeWrite dev s).USIDR < 256 := by
  rw [strobeWrite_eq]
  simp only [usiStrobe, usiShift]
  have h3 : ∀ b : Bool, s.USIDR * 2 % 256 + b.toNat < 256 := by
    intro b
    have := Bool.toNat_le b
    omega
  split_ifs <;> first | exact h | exact h3 _

/-- The polling loop keeps USIDR a byte. -/
theorem pollLoop_USIDR_lt (dev : Device) :
    ∀ (fuel : Nat) (s s1 : tinySPI), s.USIDR < 256 → pollLoop dev fuel s = some s1 →
      s1.USIDR < 256 := by
  intro fuel
  induction fuel with
  | zero =>
    intro s s1 h hp
    simp only [pollLoop] at hp
    split_ifs at hp
    cases hp
    exact h
  | succ f ih =>
    intro s s1 h hp
    simp only [pollLoop] at hp
    split_ifs at hp
    · exact ih _ _ (strobeWrite_USIDR_lt dev s h) hp
    · cases hp
      exact h

/-- The atomic block keeps USIDR a byte. -/
theorem atomicPoll_USIDR_lt (dev : Device) (fuel : Nat) (s s1 : tinySPI)
    (h : s.USIDR < 256) (hp : atomicPoll dev fuel s = some s1) : s1.USIDR < 256 := by
  unfold atomicPoll at hp
  cases hq : pollLoop dev fuel (cli s) with
  | none => simp [hq] at hp
  | some t =>
    simp only [hq, Option.some.injEq] at hp
    subst hp
    exact pollLoop_USIDR_lt dev fuel (cli s) t (by simpa [cli] using h) hq

/-- Reassembling the union: `msb * 256 + lsb` is `(msb << 8) | lsb`. -/
theorem join_bytes (hi lo : Nat) (h : lo < 256) : hi * 256 + lo = (hi <<< 8) ||| lo := by
  have e : (256 : Nat) = 2 ^ 8 := by norm_num
  rw [Nat.shiftLeft_eq, Nat.mul_comm hi (2 ^ 8), ← Nat.mul_add_lt_is_or (by omega) hi]
  omega

/-- The low byte of a word. -/
theorem low_byte (w : Nat) : w &&& 0xFF = w % 256 := by
  have e := Nat.and_pow_two_sub_one_eq_mod w 8
  simpa using e

/-! ## Byte transfer -/

/-- C2: for every byte `b` and every initial state, `transfer(b)` run against
the USI in loopback terminates (any bound of at least 16 loop iterations is
enough) and returns exactly `b`, after 16 clock strobes. -/
theorem transfer_loopback_returns_byte (b fuel : Nat) (s : tinySPI)
    (hb : b < 256) (hfuel : 16 ≤ fuel) :
    ∃ s1, tinySPI.transfer loopback fuel b s = some (b, s1)
      ∧ s1.strobes = s.strobes + 16 := by
  obtain ⟨s1, h1, -, h3, -⟩ := transfer_loopback fuel b s hfuel hb
  exact ⟨s1, h1, h3⟩

/-- Witness of C2 at the byte 0xA5, from the reset state, with 16 iterations allowed. -/
theorem transfer_loopback_returns_byte_witness :
    ∃ s1, tinySPI.transfer loopback 16 0xA5 usiReset = some (0xA5, s1)
      ∧ s1.strobes = usiReset.strobes + 16 :=
  transfer_loopback_returns_byte 0xA5 16 usiReset (by decide) (by decide)

/-! ## Word transfer -/

/-- The word transfer is two byte transfers, high byte first. -/
theorem transfer16_unfold (dev : Device) (fuel w : Nat) (s : tinySPI) :
    tinySPI.transfer16 dev fuel w s =
      match tinySPI.transfer dev fuel (w >>> 8) s with
      | none => none
      | some (hi, s1) =>
        match tinySPI.transfer dev fuel (w &&& 0xFF) s1 with
        | none => none
        | some (lo, s2) => some ((hi <<< 8) ||| lo, s2) := by
  have e1 : writeUSIDR ((w >>> 8) % 256) s = writeUSIDR (w >>> 8) s := by
    simp [writeUSIDR]
  have e2 : ∀ t : tinySPI, writeUSIDR (w % 256) t = writeUSIDR (w &&& 0xFF) t := by
    intro t
    simp [writeUSIDR, low_byte]
  simp only [tinySPI.transfer16, tinySPI.transfer, e1, e2]
  cases h1 : atomicPoll dev fuel (writeUSISR (_BV USIOIF) (writeUSIDR (w >>> 8) s)) with
  | none => rfl
  | some s1 =>
    simp only []
    cases h2 : atomicPoll dev fuel
        (writeUSISR (_BV USIOIF) (writeUSIDR (w &&& 0xFF) s1)) with
    | none => rfl
    | some s3 =>
      have hlt : s3.USIDR < 256 :=
        atomicPoll_USIDR_lt dev fuel _ s3
          (by simp only [writeUSISR, writeUSIDR]; exact Nat.mod_lt _ (by decide)) h2
      simp only [readUSIDR, join_bytes _ _ hlt]

/-- C3: for every word `w` and every device wired to the data input,
`transfer16(w)` is the byte transfer of `w >> 8` followed by the byte transfer
of `w & 0xFF` and returns `(hi << 8) | lo` (with any iteration bound, so one
side fails to return exactly when the other does); against loopback, with a
16-bit `w` and at least 16 iterations allowed, it returns exactly `w` and the
bits on the wire are those of the high byte followed by those of the low byte. -/
theorem transfer16_is_two_byte_transfers (dev : Device) (fuel w : Nat) (s : tinySPI) :
    (tinySPI.transfer16 dev fuel w s =
      match tinySPI.transfer dev fuel (w >>> 8) s with
      | none => none
      | some (hi, s1) =>
        match tinySPI.transfer dev fuel (w &&& 0xFF) s1 with
        | none => none
        | some (lo, s2) => some ((hi <<< 8) ||| lo, s2))
    ∧ (w < 65536 → 16 ≤ fuel →
        ∃ s2, tinySPI.transfer16 loopback fuel w s = some (w, s2)
          ∧ s2.wire = s.wire ++ bitsMsbFirst (w >>> 8) ++ bitsMsbFirst (w &&& 0xFF)) := by
  refine ⟨transfer16_unfold dev fuel w s, ?_⟩
  intro hw hfuel
  have hhi : w >>> 8 < 256 := by
    rw [Nat.shiftRight_eq_div_pow]
    have : (2 : Nat) ^ 8 = 256 := by norm_num
    omega
  have hlo : w &&& 0xFF < 256 := by
    rw [low_byte]
    omega
  obtain ⟨s1, h1, w1, -, -⟩ := transfer_loopback fuel (w >>> 8) s hfuel hhi
  obtain ⟨s2, h2, w2, -, -⟩ := transfer_loopback fuel (w &&& 0xFF) s1 hfuel hlo
  refine ⟨s2, ?_, ?_⟩
  · rw [transfer16_unfold, h1]
    simp only [h2]
    have e : (w >>> 8) <<< 8 ||| (w &&& 0xFF) = w := by
      rw [← join_bytes _ _ hlo, low_byte, Nat.shiftRight_eq_div_pow]
      have : (2 : Nat) ^ 8 = 256 := by norm_num
      omega
    rw [e]
  · rw [w2, w1]

/-- Witness of C3 at the word 0xA53C, from the reset state, with 16 iterations allowed. -/
theorem transfer16_is_two_byte_transfers_witness :
    ∃ s2, tinySPI.transfer16 loopback 16 0xA53C usiReset = some (0xA53C, s2)
      ∧ s2.wire = usiReset.wire ++ bitsMsbFirst (0xA53C >>> 8)
          ++ bitsMsbFirst (0xA53C &&& 0xFF) :=
  (transfer16_is_two_byte_transfers loopback 16 0xA53C usiReset).2 (by decide) (by decide)

/-! ## Buffer transfer -/

/-- C4: for every buffer and every state, `transfer(buf, 0)` returns at once:
the buffer is unchanged and the state is unchanged, so no register among
USIDR, USISR, USICR and SREG was written (the count of register writes, part of
the state, is the same). -/
theorem transfer_buf_zero_is_noop (dev : Device) (fuel : Nat) (buf : List Nat)
    (s : tinySPI) :
    tinySPI.transferBuf dev fuel buf 0 s = some (buf, s) := by
  simp [tinySPI.transferBuf]

/-- C1, the code at a failing input: from the reset state in loopback, the
buffer transfer of the two bytes 0xA5, 0x3C issues 16 strobes and shifts out
only the bits of 0xA5, where two `transfer(byte)` calls issue 32 strobes and
shift out both bytes; and once a byte transfer has left USIOIF set, the buffer
transfer of the single byte 0xA5 issues no strobe at all. -/
theorem transfer_buf_misses_flag_clear :
    (tinySPI.transferBuf loopback 16 [0xA5, 0x3C] 2 usiReset).map
        (fun r => (r.1, r.2.strobes, r.2.wire))
      = some ([0xA5, 0x3C], 16, bitsMsbFirst 0xA5)
    ∧ (transferSeq loopback 16 2 0 [0xA5, 0x3C] usiReset).map
        (fun r => (r.1, r.2.strobes, r.2.wire))
      = some ([0xA5, 0x3C], 32, bitsMsbFirst 0xA5 ++ bitsMsbFirst 0x3C)
    ∧ ((tinySPI.transfer loopback 16 0 usiReset).bind
        (fun r => (tinySPI.transferBuf loopback 16 [0xA5] 1 r.2).map
          (fun q => (q.2.strobes, q.2.wire))))
      = some (16, bitsMsbFirst 0)
    ∧ ((tinySPI.transfer loopback 16 0 usiReset).bind
        (fun r => (transferSeq loopback 16 1 0 [0xA5] r.2).map
          (fun q => (q.2.strobes, q.2.wire))))
      = some (32, bitsMsbFirst 0 ++ bitsMsbFirst 0xA5)
    ∧ (tinySPI.transferBuf loopback 16 [0xA5] 1 { usiReset with USICNT := 8 }).map
        (fun r => (r.1, r.2.strobes))
      = some ([0x5A], 8)
    ∧ (transferSeq loopback 16 1 0 [0xA5] { usiReset with USICNT := 8 }).map
        (fun r => (r.1, r.2.strobes))
      = some ([0xA5], 16) := by
  decide

/-! ## Data mode -/

/-- The bits of 0xFF. -/
theorem testBit_255 (i : Nat) : Nat.testBit 255 i = decide (i < 8) := by
  have e : (255 : Nat) = 2 ^ 8 - 1 := by norm_num
  rw [e, Nat.testBit_two_pow_sub_one]

/-- The bits of `_BV k`. -/
theorem testBit_BV (k i : Nat) : (_BV k).testBit i = decide (k = i) := by
  unfold _BV
  rw [Nat.one_shiftLeft, Nat.testBit_two_pow]

/-- The bits of `x & ~m` on eight bits. -/
theorem testBit_andNot8 (x m i : Nat) :
    (andNot8 x m).testBit i = (x.testBit i && (decide (i < 8) != m.testBit i)) := by
  unfold andNot8
  rw [Nat.testBit_and, Nat.testBit_xor, testBit_255]

/-- The bits of a value truncated to eight bits. -/
theorem testBit_mod256 (x i : Nat) :
    (x % 256).testBit i = (decide (i < 8) && x.testBit i) := by
  have e : (256 : Nat) = 2 ^ 8 := by norm_num
  rw [e, Nat.testBit_mod_two_pow]

/-- A write to USICR with USITC clear only stores the value. -/
theorem writeUSICR_no_strobe (dev : Device) (v : Nat) (s : tinySPI)
    (h : v.testBit USITC = false) :
    writeUSICR dev v s = { s with USICR := v % 256, writes := s.writes + 1 } := by
  simp [writeUSICR, h]

/-- Reading USICR back after `USICR |= _BV(USICS0)`. -/
theorem readUSICR_write_set (dev : Device) (s : tinySPI) (i : Nat) :
    (readUSICR (writeUSICR dev (readUSICR s ||| _BV USICS0) s)).testBit i
      = ((readUSICR s).testBit i || decide (i = 2)) := by
  have h0 : (readUSICR s ||| _BV USICS0).testBit USITC = false := by
    simp only [readUSICR, Nat.testBit_or, testBit_andNot8, testBit_BV, USICS0, USITC]
    simp
  rw [writeUSICR_no_strobe dev _ s h0]
  show (andNot8 ((andNot8 s.USICR (_BV USITC) ||| _BV USICS0) % 256) (_BV USITC)).testBit i
    = ((andNot8 s.USICR (_BV USITC)).testBit i || decide (i = 2))
  simp only [Nat.testBit_or, testBit_andNot8, testBit_BV, testBit_mod256, USICS0, USITC]
  generalize s.USICR.testBit i = b
  by_cases h8 : i < 8 <;> by_cases hz : 0 = i <;> by_cases h2 : 2 = i <;>
    cases b <;> simp [h8, hz, h2] <;> omega

/-- Reading USICR back after `USICR &= ~_BV(USICS0)`. -/
theorem readUSICR_write_clear (dev : Device) (s : tinySPI) (i : Nat) :
    (readUSICR (writeUSICR dev (andNot8 (readUSICR s) (_BV USICS0)) s)).testBit i
      = ((readUSICR s).testBit i && !decide (i = 2)) := by
  have h0 : (andNot8 (readUSICR s) (_BV USICS0)).testBit USITC = false := by
    simp only [readUSICR, testBit_andNot8, testBit_BV, USICS0, USITC]
    simp
  rw [writeUSICR_no_strobe dev _ s h0]
  show (andNot8 ((andNot8 (andNot8 s.USICR (_BV USITC)) (_BV USICS0)) % 256)
      (_BV USITC)).testBit i
    = ((andNot8 s.USICR (_BV USITC)).testBit i && !decide (i = 2))
  simp only [testBit_andNot8, testBit_BV, testBit_mod256, USICS0, USITC]
  generalize s.USICR.testBit i = b
  by_cases h8 : i < 8 <;> by_cases hz : 0 = i <;> by_cases h2 : 2 = i <;>
    cases b <;> simp [h8, hz, h2] <;> omega

/-- C6: for every mode value `m` and every prior state, after `setDataMode(m)`
the control register USICR reads as before except for the clock source bit
USICS0: that bit is set iff `m == SPI_MODE1` (so every other mode value gives
the same result as MODE0), and every other bit reads as it did. -/
theorem setDataMode_changes_only_USICS0 (p : UsiPart) (dev : Device) (m : Nat)
    (s : tinySPI) :
    (readUSICR (tinySPI.setDataMode p dev m s)).testBit USICS0 = decide (m = p.SPI_MODE1)
    ∧ (∀ i, i ≠ USICS0 →
        (readUSICR (tinySPI.setDataMode p dev m s)).testBit i = (readUSICR s).testBit i)
    ∧ (∀ m2, m ≠ p.SPI_MODE1 → m2 ≠ p.SPI_MODE1 →
        tinySPI.setDataMode p dev m s = tinySPI.setDataMode p dev m2 s) := by
  refine ⟨?_, ?_, ?_⟩
  · by_cases hm : m = p.SPI_MODE1
    · simp only [tinySPI.setDataMode, hm, if_true, readUSICR_write_set]
      simp [USICS0]
    · simp only [tinySPI.setDataMode, hm, if_false, readUSICR_write_clear]
      simp [USICS0]
  · intro i hi
    have hi2 : ¬ i = 2 := hi
    by_cases hm : m = p.SPI_MODE1
    · simp only [tinySPI.setDataMode, hm, if_true, readUSICR_write_set]
      simp [hi2]
    · simp only [tinySPI.setDataMode, hm, if_false, readUSICR_write_clear]
      simp [hi2]
  · intro m2 h1 h2
    simp [tinySPI.setDataMode, h1, h2]

/-- Witness of C6 on an ATtiny85 configuration: MODE1 leaves bit 3 (USICS1) as it
was, and MODE0 and MODE3 give the same state. -/
theorem setDataMode_changes_only_USICS0_witness :
    (readUSICR (tinySPI.setDataMode partTiny85 loopback 4 usiReset)).testBit 3
        = (readUSICR usiReset).testBit 3
    ∧ tinySPI.setDataMode partTiny85 loopback 0 usiReset
        = tinySPI.setDataMode partTiny85 loopback 12 usiReset :=
  ⟨(setDataMode_changes_only_USICS0 partTiny85 loopback 4 usiReset).2.1 3 (by decide),
    (setDataMode_changes_only_USICS0 partTiny85 loopback 0 usiReset).2.2 12
      (by decide) (by decide)⟩

/-! ## The interrupt flag is restored -/

/-- A write to USICR leaves SREG alone. -/
theorem writeUSICR_SREG (dev : Device) (v : Nat) (s : tinySPI) :
    (writeUSICR dev v s).SREG = s.SREG := by
  simp only [writeUSICR, usiStrobe, usiShift]
  split_ifs <;> rfl

/-- The atomic block returns with SREG as on entry. -/
theorem atomicPoll_SREG (dev : Device) (fuel : Nat) (s : tinySPI) (hfuel : 16 ≤ fuel) :
    ∃ s1, atomicPoll dev fuel s = some s1 ∧ s1.SREG = s.SREG := by
  obtain ⟨k, -, h⟩ := atomicPoll_total dev fuel s hfuel
  exact ⟨_, h, rfl⟩

/-- The byte transfer returns with SREG as on entry. -/
theorem transfer_SREG (dev : Device) (fuel b : Nat) (s : tinySPI) (hfuel : 16 ≤ fuel) :
    ∃ r s1, tinySPI.transfer dev fuel b s = some (r, s1) ∧ s1.SREG = s.SREG :=
  ⟨_, _, transfer_eq dev fuel b s hfuel, rfl⟩

/-- The word transfer returns with SREG as on entry. -/
theorem transfer16_SREG (dev : Device) (fuel w : Nat) (s : tinySPI) (hfuel : 16 ≤ fuel) :
    ∃ r s2, tinySPI.transfer16 dev fuel w s = some (r, s2) ∧ s2.SREG = s.SREG := by
  obtain ⟨hi, s1, h1, e1⟩ := transfer_SREG dev fuel (w >>> 8) s hfuel
  obtain ⟨lo, s2, h2, e2⟩ := transfer_SREG dev fuel (w &&& 0xFF) s1 hfuel
  refine ⟨(hi <<< 8) ||| lo, s2, ?_, by rw [e2, e1]⟩
  rw [transfer16_unfold, h1]
  simp only [h2]

/-- The loop of the buffer transfer returns with SREG as on entry. -/
theorem transferBufLoop_SREG (dev : Device) (fuel : Nat) (hfuel : 16 ≤ fuel) :
    ∀ (k p : Nat) (buf : List Nat) (s : tinySPI),
      ∃ q buf1 s1, transferBufLoop dev fuel k p buf s = some (q, buf1, s1)
        ∧ s1.SREG = s.SREG := by
  intro k
  induction k with
  | zero => intro p buf s; exact ⟨p, buf, s, rfl, rfl⟩
  | succ k ih =>
    intro p buf s
    obtain ⟨s1, h1, e1⟩ := atomicPoll_SREG dev fuel s hfuel
    obtain ⟨q, buf1, s2, h2, e2⟩ :=
      ih (p + 1) (buf.set p (readUSIDR s1)) (writeUSIDR (buf.getD (p + 1) 0) s1)
    refine ⟨q, buf1, s2, ?_, ?_⟩
    · simp only [transferBufLoop, h1, h2]
    · rw [e2]
      simpa [writeUSIDR] using e1

/-- The buffer transfer returns with SREG as on entry. -/
theorem transferBuf_SREG (dev : Device) (fuel : Nat) (buf : List Nat) (count : Nat)
    (s : tinySPI) (hfuel : 16 ≤ fuel) :
    ∃ buf1 s1, tinySPI.transferBuf dev fuel buf count s = some (buf1, s1)
      ∧ s1.SREG = s.SREG := by
  by_cases hc : count = 0
  · exact ⟨buf, s, by simp [tinySPI.transferBuf, hc], rfl⟩
  · obtain ⟨q, buf1, s1, h1, e1⟩ :=
      transferBufLoop_SREG dev fuel hfuel (count - 1) 0 buf (writeUSIDR (buf.getD 0 0) s)
    obtain ⟨s2, h2, e2⟩ := atomicPoll_SREG dev fuel s1 hfuel
    refine ⟨buf1.set q (readUSIDR s2), s2, ?_, ?_⟩
    · simp only [tinySPI.transferBuf, hc, if_false, h1, h2]
    · rw [e2, e1]
      rfl

/-- The hardware `begin` restores SREG. -/
theorem hw_begin_SREG (s : SPIClass) : s.begin.SREG = s.SREG := rfl

/-- The hardware `end` restores SREG. -/
theorem hw_end_SREG (s : SPIClass) : s.end_.SREG = s.SREG := rfl

/-- The operation `usingInterrupt` restores SREG. -/
theorem hw_using_SREG (p : SpiPart) (n : Nat) (s : SPIClass) :
    (s.usingInterrupt p n).SREG = s.SREG := rfl

/-- The operation `notUsingInterrupt` leaves or restores SREG. -/
theorem hw_notUsing_SREG (p : SpiPart) (n : Nat) (s : SPIClass) :
    (s.notUsingInterrupt p n).SREG = s.SREG := by
  unfold SPIClass.notUsingInterrupt
  split_ifs <;> rfl

/-- C5: for every operation of either driver and every initial state, the I bit
of SREG after the operation equals the I bit before it.  The hardware driver's
`begin`, `end`, `usingInterrupt` and `notUsingInterrupt` (early return
included) and the software driver's `begin`, `end` and `setDataMode` always
return; the three transfers return as soon as 16 loop iterations are allowed
per polling loop, and then the I bit is as before. -/
theorem interrupt_flag_preserved (hp : SpiPart) (up : UsiPart) (dev : Device)
    (n m b w count fuel : Nat) (buf : List Nat) (h : SPIClass) (u : tinySPI)
    (hfuel : 16 ≤ fuel) :
    iBit h.begin.SREG = iBit h.SREG
    ∧ iBit h.end_.SREG = iBit h.SREG
    ∧ iBit (h.usingInterrupt hp n).SREG = iBit h.SREG
    ∧ iBit (h.notUsingInterrupt hp n).SREG = iBit h.SREG
    ∧ iBit (tinySPI.begin up dev u).SREG = iBit u.SREG
    ∧ iBit (tinySPI.end_ dev u).SREG = iBit u.SREG
    ∧ iBit (tinySPI.setDataMode up dev m u).SREG = iBit u.SREG
    ∧ (∃ r u1, tinySPI.transfer dev fuel b u = some (r, u1)
        ∧ iBit u1.SREG = iBit u.SREG)
    ∧ (∃ r u1, tinySPI.transfer16 dev fuel w u = some (r, u1)
        ∧ iBit u1.SREG = iBit u.SREG)
    ∧ (∃ buf1 u1, tinySPI.transferBuf dev fuel buf count u = some (buf1, u1)
        ∧ iBit u1.SREG = iBit u.SREG) := by
  refine ⟨by rw [hw_begin_SREG], by rw [hw_end_SREG], by rw [hw_using_SREG],
    by rw [hw_notUsing_SREG], ?_, ?_, ?_, ?_, ?_, ?_⟩
  · simp only [tinySPI.begin, writeUSICR_SREG]
  · simp only [tinySPI.end_, writeUSICR_SREG]
  · unfold tinySPI.setDataMode
    split_ifs <;> rw [writeUSICR_SREG]
  · obtain ⟨r, u1, h1, e1⟩ := transfer_SREG dev fuel b u hfuel
    exact ⟨r, u1, h1, by rw [e1]⟩
  · obtain ⟨r, u1, h1, e1⟩ := transfer16_SREG dev fuel w u hfuel
    exact ⟨r, u1, h1, by rw [e1]⟩
  · obtain ⟨r, u1, h1, e1⟩ := transferBuf_SREG dev fuel buf count u hfuel
    exact ⟨r, u1, h1, by rw [e1]⟩

/-- Witness of C5: a buffer transfer of two bytes from the reset state, where
interrupts are enabled, returns with interrupts enabled. -/
theorem interrupt_flag_preserved_witness :
    ∃ buf1 u1, tinySPI.transferBuf loopback 16 [0xA5, 0x3C] 2 usiReset = some (buf1, u1)
      ∧ iBit u1.SREG = iBit usiReset.SREG :=
  (interrupt_flag_preserved partInt01 partTiny85 loopback 0 0 0 0 2 16 [0xA5, 0x3C]
    spiReset usiReset (by decide)).2.2.2.2.2.2.2.2.2

/-! ## The hardware driver: what `begin` and `end` change -/

/-- The count after `begin`. -/
theorem begin_initialized (s : SPIClass) :
    s.begin.initialized = (s.initialized + 1) % 256 := by
  simp only [SPIClass.begin, noInterrupts, beginSetup, pinModeOutput, digitalWriteHigh]
  split_ifs <;> rfl

/-- The register SPCR after `begin`. -/
theorem begin_SPCR (s : SPIClass) :
    s.begin.SPCR = if s.initialized = 0 then s.SPCR ||| _BV MSTR ||| _BV SPE else s.SPCR := by
  simp only [SPIClass.begin, noInterrupts, beginSetup, pinModeOutput, digitalWriteHigh]
  split_ifs <;> rfl

/-- With a non-zero count `begin` changes the count only. -/
theorem begin_no_setup (s : SPIClass) (h : s.initialized ≠ 0) :
    s.begin = { s with initialized := (s.initialized + 1) % 256 } := by
  simp [SPIClass.begin, noInterrupts, h]

/-- With count zero `begin` performs the electrical setup. -/
theorem begin_setup (s : SPIClass) (h : s.initialized = 0) :
    s.begin.initialized = 1
    ∧ s.begin.SPCR.testBit MSTR = true ∧ s.begin.SPCR.testBit SPE = true
    ∧ s.begin.ssDDR = true ∧ s.begin.sckDDR = true ∧ s.begin.mosiDDR = true
    ∧ (s.ssDDR = false → s.begin.ssPORT = true) := by
  have e := begin_SPCR s
  rw [if_pos h] at e
  refine ⟨by rw [begin_initialized, h], ?_, ?_, ?_, ?_, ?_, ?_⟩
  · rw [e]
    simp [Nat.testBit_or, testBit_BV, MSTR]
  · rw [e]
    simp [Nat.testBit_or, testBit_BV, SPE]
  · simp only [SPIClass.begin, noInterrupts, beginSetup, pinModeOutput, digitalWriteHigh, h]
    split_ifs <;> rfl
  · simp only [SPIClass.begin, noInterrupts, beginSetup, pinModeOutput, digitalWriteHigh, h]
    split_ifs <;> rfl
  · simp only [SPIClass.begin, noInterrupts, beginSetup, pinModeOutput, digitalWriteHigh, h]
    split_ifs <;> rfl
  · intro hss
    simp [SPIClass.begin, noInterrupts, beginSetup, pinModeOutput, digitalWriteHigh, h,
      pinIsOutput, hss]

/-- The count after `end`: one less, and zero stays zero. -/
theorem end_initialized (s : SPIClass) : s.end_.initialized = s.initialized - 1 := by
  simp only [SPIClass.end_, noInterrupts]
  split_ifs <;> simp_all

/-- The register SPCR after `end`. -/
theorem end_SPCR (s : SPIClass) :
    s.end_.SPCR = if s.initialized ≤ 1 then andNot8 s.SPCR (_BV SPE) else s.SPCR := by
  simp only [SPIClass.end_, noInterrupts]
  split_ifs <;> first | (simp_all; done) | (simp_all; omega)

/-- The interrupt mode after `end`. -/
theorem end_interruptMode (s : SPIClass) :
    s.end_.interruptMode = if s.initialized ≤ 1 then 0 else s.interruptMode := by
  simp only [SPIClass.end_, noInterrupts]
  split_ifs <;> first | (simp_all; done) | (simp_all; omega)

/-! ## The reference count -/

/-- Running a sequence extended by one call. -/
theorem runLife_snoc (l : List LifeCall) (c : LifeCall) (s : SPIClass) :
    runLife (l ++ [c]) s = c.exec (runLife l s) := by
  simp [runLife, List.foldl_append]

/-- The outstanding count of a sequence extended by one call. -/
theorem outstanding_snoc (l : List LifeCall) (c : LifeCall) :
    outstanding (l ++ [c]) = match c with
      | LifeCall.callBegin => outstanding l + 1
      | LifeCall.callEnd => outstanding l - 1 := by
  simp [outstanding, List.foldl_append]

/-- After `SPCR &= ~_BV(SPE)` the bit SPE is clear. -/
theorem testBit_SPE_cleared (x : Nat) : (andNot8 x (_BV SPE)).testBit SPE = false := by
  simp [testBit_andNot8, testBit_BV, SPE]

/-- Clearing SPE in an 8-bit value where it is clear changes nothing. -/
theorem andNot8_SPE_of_clear (x : Nat) (hx : x < 256) (h : x.testBit SPE = false) :
    andNot8 x (_BV SPE) = x := by
  apply Nat.eq_of_testBit_eq
  intro i
  rw [testBit_andNot8, testBit_BV]
  by_cases h6 : SPE = i
  · subst h6
    simp [h]
  · by_cases h8 : i < 8
    · simp [h6, h8]
    · have : x.testBit i = false := by
        apply Nat.testBit_lt_two_pow
        have h28 : (2 : Nat) ^ 8 ≤ 2 ^ i := Nat.pow_le_pow_right (by decide) (by omega)
        have e : (2 : Nat) ^ 8 = 256 := by norm_num
        omega
      simp [this]

/-- Clearing bits does not increase a value. -/
theorem andNot8_le (x m : Nat) : andNot8 x m ≤ x := Nat.and_le_left

/-- Setting MSTR and SPE keeps SPCR an 8-bit value. -/
theorem setup_bits_lt (x : Nat) (hx : x < 256) : x ||| _BV MSTR ||| _BV SPE < 256 := by
  have e : (256 : Nat) = 2 ^ 8 := by norm_num
  rw [e] at hx ⊢
  exact Nat.or_lt_two_pow (Nat.or_lt_two_pow hx (by decide)) (by decide)

/-- Along a sequence of `begin()`/`end()` calls whose number of outstanding
`begin()` calls never exceeds 255, the counter `initialized` is that number and
SPE is set exactly when it is positive. -/
theorem runLife_invariant (calls : List LifeCall) (s : SPIClass)
    (h0 : s.initialized = 0) (hspe : s.SPCR.testBit SPE = false)
    (hb : ∀ n, outstanding (calls.take n) ≤ 255) :
    (runLife calls s).initialized = outstanding calls
    ∧ ((runLife calls s).SPCR.testBit SPE = true ↔ 0 < outstanding calls)
    ∧ (s.SPCR < 256 → (runLife calls s).SPCR < 256) := by
  induction calls using List.reverseRecOn with
  | nil => simp [runLife, outstanding, h0, hspe]
  | append_singleton l c ih =>
    have hl : ∀ n, outstanding (l.take n) ≤ 255 := by
      intro n
      by_cases hn : n ≤ l.length
      · have := hb n
        rwa [List.take_append_of_le_length hn] at this
      · have := hb l.length
        rw [List.take_append_of_le_length (Nat.le_refl _)] at this
        rw [List.take_of_length_le (by omega)]
        rwa [List.take_length] at this
    have hfull : outstanding (l ++ [c]) ≤ 255 := by
      have := hb (l ++ [c]).length
      rwa [List.take_length] at this
    obtain ⟨i1, i2, i3⟩ := ih hl
    rw [runLife_snoc, outstanding_snoc]
    rw [outstanding_snoc] at hfull
    cases c with
    | callBegin =>
      simp only [LifeCall.exec] at hfull ⊢
      refine ⟨?_, ?_, ?_⟩
      · rw [begin_initialized, i1]
        omega
      · rw [begin_SPCR]
        split_ifs with hz
        · simp [Nat.testBit_or, testBit_BV, SPE]
        · have : 0 < outstanding l := by omega
          simp [i2.mpr this]
      · intro hx
        rw [begin_SPCR]
        split_ifs
        · exact setup_bits_lt _ (i3 hx)
        · exact i3 hx
    | callEnd =>
      simp only [LifeCall.exec] at hfull ⊢
      refine ⟨?_, ?_, ?_⟩
      · rw [end_initialized, i1]
      · rw [end_SPCR]
        split_ifs with hz
        · rw [testBit_SPE_cleared]
          constructor
          · intro h
            cases h
          · intro h
            omega
        · rw [i2]
          omega
      · intro hx
        rw [end_SPCR]
        split_ifs
        · exact Nat.lt_of_le_of_lt (andNot8_le _ _) (i3 hx)
        · exact i3 hx

set_option maxRecDepth 100000 in
/-- C7, the claim as stated fails: after 256 `begin()` calls the 8-bit counter
has wrapped to 0, so one `end()` clears SPE although 255 `begin()` calls are
still outstanding. -/
theorem refcount_wraps_after_256_begins :
    ¬ ((runLife (List.replicate 256 LifeCall.callBegin ++ [LifeCall.callEnd])
          spiReset).SPCR.testBit SPE = true
        ↔ 0 < outstanding (List.replicate 256 LifeCall.callBegin ++ [LifeCall.callEnd])) := by
  decide

/-- C7, amended: for every sequence of `begin()`/`end()` calls from a state with
`initialized = 0` and SPE clear, in which the number of outstanding `begin()`
calls never exceeds 255 (what the 8-bit counter can hold), the counter equals
the number of outstanding `begin()` calls, SPE is set if and only if that
number is greater than zero, and an `end()` at count zero leaves the count
zero. -/
theorem refcount_tracks_outstanding (calls : List LifeCall) (s : SPIClass)
    (h0 : s.initialized = 0) (hspe : s.SPCR.testBit SPE = false)
    (hb : ∀ n, outstanding (calls.take n) ≤ 255) :
    (runLife calls s).initialized = outstanding calls
    ∧ ((runLife calls s).SPCR.testBit SPE = true ↔ 0 < outstanding calls)
    ∧ (∀ t : SPIClass, t.initialized = 0 → t.end_.initialized = 0) := by
  obtain ⟨h1, h2, -⟩ := runLife_invariant calls s h0 hspe hb
  refine ⟨h1, h2, ?_⟩
  intro t ht
  rw [end_initialized, ht]

/-- There are no more outstanding calls than calls. -/
theorem outstanding_le_length (calls : List LifeCall) : outstanding calls ≤ calls.length := by
  induction calls using List.reverseRecOn with
  | nil => simp [outstanding]
  | append_singleton l c ih =>
    rw [outstanding_snoc, List.length_append]
    cases c <;> simp <;> omega

/-- A sequence of at most 255 calls stays within the range of the counter. -/
theorem outstanding_take_le (calls : List LifeCall) (h : calls.length ≤ 255) (n : Nat) :
    outstanding (calls.take n) ≤ 255 := by
  have h1 := outstanding_le_length (calls.take n)
  have h2 : (calls.take n).length ≤ calls.length := by
    rw [List.length_take]
    exact Nat.min_le_right _ _
  omega

/-- Witness of the amended C7: `begin(); begin(); end()` from the reset state. -/
theorem refcount_tracks_outstanding_witness :
    (runLife [LifeCall.callBegin, LifeCall.callBegin, LifeCall.callEnd] spiReset).initialized
      = outstanding [LifeCall.callBegin, LifeCall.callBegin, LifeCall.callEnd]
    ∧ ((runLife [LifeCall.callBegin, LifeCall.callBegin, LifeCall.callEnd]
          spiReset).SPCR.testBit SPE = true
        ↔ 0 < outstanding [LifeCall.callBegin, LifeCall.callBegin, LifeCall.callEnd])
    ∧ (∀ t : SPIClass, t.initialized = 0 → t.end_.initialized = 0) :=
  refcount_tracks_outstanding [LifeCall.callBegin, LifeCall.callBegin, LifeCall.callEnd]
    spiReset (by decide) (by decide) (outstanding_take_le _ (by decide))

set_option maxRecDepth 100000 in
/-- C8, the claim as stated fails: the state after 256 `begin()` calls is
reachable, its count is 0 (not 1), and `end()` called there changes SPCR. -/
theorem end_changes_SPCR_at_wrapped_zero :
    ¬ ((runLife (List.replicate 256 LifeCall.callBegin) spiReset).initialized ≠ 1 →
        (runLife (List.replicate 256 LifeCall.callBegin) spiReset).end_.SPCR
          = (runLife (List.replicate 256 LifeCall.callBegin) spiReset).SPCR) := by
  decide

/-- C8, amended: in every state reached from a state with `initialized = 0`, SPE
clear and an 8-bit SPCR by `begin()`/`end()` calls whose number of outstanding
`begin()` calls never exceeds 255: `begin()` with a non-zero count changes
nothing but the count, `begin()` with count 0 performs the setup (SS pulled
high if it was an input, SS, SCK and MOSI made outputs, MSTR and SPE set);
`end()` with count 1 clears SPE, and `end()` with any other count leaves SPCR
unchanged. -/
theorem setup_and_powerdown_at_edges_only (calls : List LifeCall) (s0 : SPIClass)
    (h0 : s0.initialized = 0) (hspe : s0.SPCR.testBit SPE = false) (hbyte : s0.SPCR < 256)
    (hb : ∀ n, outstanding (calls.take n) ≤ 255) :
    ((runLife calls s0).initialized ≠ 0 →
        (runLife calls s0).begin = { runLife calls s0 with
          initialized := ((runLife calls s0).initialized + 1) % 256 })
    ∧ ((runLife calls s0).initialized = 0 →
        (runLife calls s0).begin.SPCR.testBit MSTR = true
        ∧ (runLife calls s0).begin.SPCR.testBit SPE = true
        ∧ (runLife calls s0).begin.ssDDR = true
        ∧ (runLife calls s0).begin.sckDDR = true
        ∧ (runLife calls s0).begin.mosiDDR = true)
    ∧ ((runLife calls s0).initialized = 1 →
        (runLife calls s0).end_.SPCR.testBit SPE = false)
    ∧ ((runLife calls s0).initialized ≠ 1 →
        (runLife calls s0).end_.SPCR = (runLife calls s0).SPCR) := by
  obtain ⟨h1, h2, h3⟩ := runLife_invariant calls s0 h0 hspe hb
  refine ⟨begin_no_setup _, ?_, ?_, ?_⟩
  · intro hz
    obtain ⟨-, a, b, c, d, e, -⟩ := begin_setup _ hz
    exact ⟨a, b, c, d, e⟩
  · intro hone
    rw [end_SPCR, if_pos (by omega), testBit_SPE_cleared]
  · intro hne
    rw [end_SPCR]
    split_ifs with hle
    · have hz : outstanding calls = 0 := by omega
      have hclear : (runLife calls s0).SPCR.testBit SPE = false := by
        cases hbit : (runLife calls s0).SPCR.testBit SPE with
        | false => rfl
        | true =>
          have := h2.mp hbit
          omega
      exact andNot8_SPE_of_clear _ (h3 hbyte) hclear
    · rfl

/-- Witness of the amended C8: the state after `begin(); begin(); end()`. -/
theorem setup_and_powerdown_at_edges_only_witness :
    (runLife [LifeCall.callBegin, LifeCall.callBegin, LifeCall.callEnd]
        spiReset).end_.SPCR.testBit SPE = false :=
  (setup_and_powerdown_at_edges_only
    [LifeCall.callBegin, LifeCall.callBegin, LifeCall.callEnd] spiReset
    (by decide) (by decide) (by decide) (outstanding_take_le _ (by decide))).2.2.1
    (by decide)

/-! ## Interrupt bookkeeping -/

/-- The operation `begin` leaves the interrupt mode and mask alone. -/
theorem begin_interrupt_fields (s : SPIClass) :
    s.begin.interruptMode = s.interruptMode ∧ s.begin.interruptMask = s.interruptMask := by
  simp only [SPIClass.begin, noInterrupts, beginSetup, pinModeOutput, digitalWriteHigh]
  split_ifs <;> exact ⟨rfl, rfl⟩

/-- The operation `end` leaves the interrupt mask alone. -/
theorem end_interruptMask (s : SPIClass) : s.end_.interruptMask = s.interruptMask := by
  simp only [SPIClass.end_, noInterrupts]
  split_ifs <;> rfl

/-- The `default` branch of `usingInterrupt`. -/
theorem using_unknown (p : SpiPart) (n : Nat) (s : SPIClass) (hn : lookupMask p n = none) :
    (s.usingInterrupt p n).interruptMode = 2
    ∧ (s.usingInterrupt p n).interruptMask = s.interruptMask := by
  simp [SPIClass.usingInterrupt, noInterrupts, hn]

/-- After `usingInterrupt` the mode is never 0. -/
theorem using_interruptMode_ne_zero (p : SpiPart) (n : Nat) (s : SPIClass) :
    (s.usingInterrupt p n).interruptMode ≠ 0 := by
  cases hl : lookupMask p n with
  | none => simp [SPIClass.usingInterrupt, noInterrupts, hl]
  | some m =>
    simp only [SPIClass.usingInterrupt, noInterrupts, hl]
    split_ifs with hz
    · simp
    · exact hz

/-- In mode 2 `usingInterrupt` keeps mode 2. -/
theorem using_keeps_mode2 (p : SpiPart) (n : Nat) (s : SPIClass) (h : s.interruptMode = 2) :
    (s.usingInterrupt p n).interruptMode = 2 := by
  cases hl : lookupMask p n with
  | none => simp [SPIClass.usingInterrupt, noInterrupts, hl]
  | some m => simp [SPIClass.usingInterrupt, noInterrupts, hl, h]

/-- In mode 2 `notUsingInterrupt` returns at once. -/
theorem notUsing_keeps_mode2 (p : SpiPart) (n : Nat) (s : SPIClass)
    (h : s.interruptMode = 2) : s.notUsingInterrupt p n = s := by
  simp [SPIClass.notUsingInterrupt, h]

/-- Outside mode 2, what `notUsingInterrupt` does to mask and mode. -/
theorem notUsing_fields (p : SpiPart) (n : Nat) (s : SPIClass) (h : s.interruptMode ≠ 2) :
    ∃ mask, (s.notUsingInterrupt p n).interruptMask = andNot8 s.interruptMask mask
      ∧ (s.notUsingInterrupt p n).interruptMode
          = if andNot8 s.interruptMask mask = 0 then 0 else s.interruptMode := by
  refine ⟨match lookupMask p n with
    | some m => m % 256
    | none => 0, ?_, ?_⟩
  · simp only [SPIClass.notUsingInterrupt, noInterrupts, h, if_false]
    split_ifs <;> rfl
  · simp only [SPIClass.notUsingInterrupt, noInterrupts, h, if_false]
    split_ifs <;> rfl

/-- Without an `end` call the mode stays 2. -/
theorem runCalls_keeps_mode2 (p : SpiPart) (calls : List HwCall) :
    ∀ s : SPIClass, HwCall.callEnd ∉ calls → s.interruptMode = 2 →
      (runCalls p calls s).interruptMode = 2 := by
  induction calls with
  | nil => intro s _ h; exact h
  | cons c rest ih =>
    intro s hne h
    have hrest : HwCall.callEnd ∉ rest := fun hmem => hne (List.mem_cons_of_mem _ hmem)
    have hc : c ≠ HwCall.callEnd := fun e => hne (by rw [e]; exact List.mem_cons_self _ _)
    simp only [runCalls]
    apply ih _ hrest
    cases c with
    | callBegin => simpa [HwCall.exec, (begin_interrupt_fields s).1] using h
    | callEnd => exact absurd rfl hc
    | callUsing k => exact using_keeps_mode2 p k s h
    | callNotUsing k =>
      simp only [HwCall.exec]
      rw [notUsing_keeps_mode2 p k s h]
      exact h

/-- C9: for every interrupt number `n` that takes the `default` branch of the
lookup, `usingInterrupt(n)` sets `interruptMode` to 2 and leaves
`interruptMask` as it was; after that `interruptMode` is still 2 after every
sequence of `usingInterrupt`, `notUsingInterrupt` and `begin` calls with any
arguments; and `end()` called in mode 2 resets the mode to 0 exactly when the
reference count reaches zero (it was 1, or already 0), leaving it 2
otherwise. -/
theorem unknown_line_forces_mode2 (p : SpiPart) (n : Nat) (s : SPIClass)
    (hn : lookupMask p n = none) :
    (s.usingInterrupt p n).interruptMode = 2
    ∧ (s.usingInterrupt p n).interruptMask = s.interruptMask
    ∧ (∀ calls : List HwCall, HwCall.callEnd ∉ calls →
        (runCalls p calls (s.usingInterrupt p n)).interruptMode = 2)
    ∧ (∀ t : SPIClass, t.interruptMode = 2 →
        t.end_.interruptMode = if t.initialized ≤ 1 then 0 else 2) := by
  obtain ⟨h1, h2⟩ := using_unknown p n s hn
  refine ⟨h1, h2, fun calls hne => runCalls_keeps_mode2 p calls _ hne h1, ?_⟩
  intro t ht
  rw [end_interruptMode, ht]

/-- Witness of C9: line 5 is not in the table of a part with INT0 and INT1;
after `usingInterrupt(5)`, the calls `notUsingInterrupt(5)`, `usingInterrupt(0)`,
`begin()`, `notUsingInterrupt(0)` leave the mode at 2. -/
theorem unknown_line_forces_mode2_witness :
    (runCalls partInt01
      [HwCall.callNotUsing 5, HwCall.callUsing 0, HwCall.callBegin, HwCall.callNotUsing 0]
      (spiReset.usingInterrupt partInt01 5)).interruptMode = 2 :=
  (unknown_line_forces_mode2 partInt01 5 spiReset (by decide)).2.2.1 _ (by decide)

/-- C10, the claim as stated fails: on a part with INT0, the calls `begin()`,
`usingInterrupt(0)`, `end()` from the reset state leave `interruptMode == 0`
with `interruptMask == 1`. -/
theorem end_resets_mode_not_mask :
    ¬ ((runCalls partInt01 [HwCall.callBegin, HwCall.callUsing 0, HwCall.callEnd]
          spiReset).interruptMode = 0 →
        (runCalls partInt01 [HwCall.callBegin, HwCall.callUsing 0, HwCall.callEnd]
          spiReset).interruptMask = 0) := by
  decide

/-- Clearing bits of zero gives zero. -/
theorem andNot8_zero (m : Nat) : andNot8 0 m = 0 := by
  simp [andNot8]

/-- One call keeps the link between mode 0 and an empty mask. -/
theorem exec_keeps_mask_invariant (p : SpiPart) (c : HwCall) (s : SPIClass)
    (hinv : s.interruptMode = 0 → s.interruptMask = 0)
    (hc : (match c with
      | HwCall.callEnd => decide (s.interruptMask = 0 ∨ 2 ≤ s.initialized)
      | _ => true) = true) :
    (c.exec p s).interruptMode = 0 → (c.exec p s).interruptMask = 0 := by
  cases c with
  | callBegin =>
    simp only [HwCall.exec, (begin_interrupt_fields s).1, (begin_interrupt_fields s).2]
    exact hinv
  | callEnd =>
    simp only [decide_eq_true_eq] at hc
    simp only [HwCall.exec, end_interruptMask, end_interruptMode]
    intro hmode
    rcases hc with hk | h2
    · exact hk
    · rw [if_neg (by omega)] at hmode
      exact hinv hmode
  | callUsing k =>
    intro hmode
    exact absurd hmode (using_interruptMode_ne_zero p k s)
  | callNotUsing k =>
    simp only [HwCall.exec]
    by_cases h2 : s.interruptMode = 2
    · rw [notUsing_keeps_mode2 p k s h2]
      exact hinv
    · obtain ⟨mask, e1, e2⟩ := notUsing_fields p k s h2
      rw [e1, e2]
      split_ifs with hz
      · intro _
        exact hz
      · intro hmode
        rw [hinv hmode, andNot8_zero] at hz
        exact absurd rfl hz

/-- C10, amended: in every state reached from a state with `interruptMode = 0`
and `interruptMask = 0` by a sequence of `begin`, `end`, `usingInterrupt` and
`notUsingInterrupt` calls in which every `end()` is made with
`interruptMask == 0` or with a reference count of at least 2 (so that no
`end()` resets the mode while lines are registered), `interruptMode == 0`
implies `interruptMask == 0`. -/
theorem mode_zero_implies_mask_zero (p : SpiPart) (calls : List HwCall) (s0 : SPIClass)
    (_hmode : s0.interruptMode = 0) (hmask : s0.interruptMask = 0)
    (hends : endsKeepMask p calls s0 = true) :
    (runCalls p calls s0).interruptMode = 0 → (runCalls p calls s0).interruptMask = 0 := by
  have key : ∀ (l : List HwCall) (s : SPIClass),
      (s.interruptMode = 0 → s.interruptMask = 0) → endsKeepMask p l s = true →
      (runCalls p l s).interruptMode = 0 → (runCalls p l s).interruptMask = 0 := by
    intro l
    induction l with
    | nil => intro s hinv _; exact hinv
    | cons c rest ih =>
      intro s hinv he
      simp only [endsKeepMask, Bool.and_eq_true] at he
      simp only [runCalls]
      exact ih _ (exec_keeps_mask_invariant p c s hinv he.1) he.2
  exact key calls s0 (fun _ => hmask) hends

/-- Witness of the amended C10: `begin(); usingInterrupt(0); usingInterrupt(1);
notUsingInterrupt(0); notUsingInterrupt(1); end()` on a part with INT0 and INT1. -/
theorem mode_zero_implies_mask_zero_witness :
    (runCalls partInt01
      [HwCall.callBegin, HwCall.callUsing 0, HwCall.callUsing 1, HwCall.callNotUsing 0,
        HwCall.callNotUsing 1, HwCall.callEnd] spiReset).interruptMask = 0 :=
  mode_zero_implies_mask_zero partInt01
    [HwCall.callBegin, HwCall.callUsing 0, HwCall.callUsing 1, HwCall.callNotUsing 0,
      HwCall.callNotUsing 1, HwCall.callEnd] spiReset (by decide) (by decide) (by decide)
    (by decide)
